import Mathlib

set_option maxHeartbeats 1000000
set_option maxRecDepth 40000

/-!
Formal model of the babo 2D rendering core (src/src/rendering and src/src/utils.rs).

Matrices built from translations, rotations about z, scalings and orthographic
projections are embedded as 4×4 matrices over ℚ; the f32 values appearing in the
claims are exact rationals, so ℚ arithmetic is faithful for the stated matrix
identities.  Stateful OpenGL behavior (texture-name generation, uniform-location
queries, rasterization calls, emitted draw commands) is embedded as explicit
state passing over a `GlState` record plus a command trace.
-/

/-- A 4×4 matrix over ℚ: the shallow embedding of the nalgebra `Matrix4<f32>`
values composed in camera.rs, sprite_renderer.rs and font_renderer.rs. -/
@[ext]
structure Mat4 where
  m00 : ℚ
  m01 : ℚ
  m02 : ℚ
  m03 : ℚ
  m10 : ℚ
  m11 : ℚ
  m12 : ℚ
  m13 : ℚ
  m20 : ℚ
  m21 : ℚ
  m22 : ℚ
  m23 : ℚ
  m30 : ℚ
  m31 : ℚ
  m32 : ℚ
  m33 : ℚ
deriving DecidableEq

/-- Row-by-column 4×4 matrix product (nalgebra `Matrix4` multiplication). -/
def Mat4.mul (A B : Mat4) : Mat4 where
  m00 := A.m00 * B.m00 + A.m01 * B.m10 + A.m02 * B.m20 + A.m03 * B.m30
  m01 := A.m00 * B.m01 + A.m01 * B.m11 + A.m02 * B.m21 + A.m03 * B.m31
  m02 := A.m00 * B.m02 + A.m01 * B.m12 + A.m02 * B.m22 + A.m03 * B.m32
  m03 := A.m00 * B.m03 + A.m01 * B.m13 + A.m02 * B.m23 + A.m03 * B.m33
  m10 := A.m10 * B.m00 + A.m11 * B.m10 + A.m12 * B.m20 + A.m13 * B.m30
  m11 := A.m10 * B.m01 + A.m11 * B.m11 + A.m12 * B.m21 + A.m13 * B.m31
  m12 := A.m10 * B.m02 + A.m11 * B.m12 + A.m12 * B.m22 + A.m13 * B.m32
  m13 := A.m10 * B.m03 + A.m11 * B.m13 + A.m12 * B.m23 + A.m13 * B.m33
  m20 := A.m20 * B.m00 + A.m21 * B.m10 + A.m22 * B.m20 + A.m23 * B.m30
  m21 := A.m20 * B.m01 + A.m21 * B.m11 + A.m22 * B.m21 + A.m23 * B.m31
  m22 := A.m20 * B.m02 + A.m21 * B.m12 + A.m22 * B.m22 + A.m23 * B.m32
  m23 := A.m20 * B.m03 + A.m21 * B.m13 + A.m22 * B.m23 + A.m23 * B.m33
  m30 := A.m30 * B.m00 + A.m31 * B.m10 + A.m32 * B.m20 + A.m33 * B.m30
  m31 := A.m30 * B.m01 + A.m31 * B.m11 + A.m32 * B.m21 + A.m33 * B.m31
  m32 := A.m30 * B.m02 + A.m31 * B.m12 + A.m32 * B.m22 + A.m33 * B.m32
  m33 := A.m30 * B.m03 + A.m31 * B.m13 + A.m32 * B.m23 + A.m33 * B.m33

instance : Mul Mat4 := ⟨Mat4.mul⟩

theorem Mat4.mul_def (A B : Mat4) : A * B = Mat4.mul A B := rfl

/-- The identity matrix (`Matrix4::identity()`). -/
def Mat4.one : Mat4 :=
  ⟨1, 0, 0, 0, 0, 1, 0, 0, 0, 0, 1, 0, 0, 0, 0, 1⟩

theorem Mat4.mul_assoc3 (A B C : Mat4) : A * B * C = A * (B * C) := by
  ext <;> simp [Mat4.mul_def, Mat4.mul] <;> ring

theorem Mat4.one_mul (A : Mat4) : Mat4.one * A = A := by
  ext <;> simp [Mat4.mul_def, Mat4.mul, Mat4.one]

theorem Mat4.mul_one (A : Mat4) : A * Mat4.one = A := by
  ext <;> simp [Mat4.mul_def, Mat4.mul, Mat4.one]

/-- `Matrix4::new_translation(&Vector3::new(x, y, z))`. -/
def translationM (x y z : ℚ) : Mat4 :=
  ⟨1, 0, 0, x, 0, 1, 0, y, 0, 0, 1, z, 0, 0, 0, 1⟩

/-- `Matrix4::new_nonuniform_scaling(&Vector3::new(x, y, z))`. -/
def scalingM (x y z : ℚ) : Mat4 :=
  ⟨x, 0, 0, 0, 0, y, 0, 0, 0, 0, z, 0, 0, 0, 0, 1⟩

/-- `Matrix4::new_rotation(&Vector3::z() * θ)`: rotation about the z-axis,
with `c` and `s` standing for cos θ and sin θ (passed explicitly because the
embedding is over ℚ; every claim below instantiates θ = 0, i.e. c = 1, s = 0). -/
def rotZM (c s : ℚ) : Mat4 :=
  ⟨c, -s, 0, 0, s, c, 0, 0, 0, 0, 1, 0, 0, 0, 0, 1⟩

/-- `Orthographic3::new(left, right, bottom, top, znear, zfar)` as a matrix
(the standard GL orthographic projection that nalgebra constructs). -/
def orthoM (l r b t zn zf : ℚ) : Mat4 :=
  ⟨2 / (r - l), 0, 0, -(r + l) / (r - l),
   0, 2 / (t - b), 0, -(t + b) / (t - b),
   0, 0, -2 / (zf - zn), -(zf + zn) / (zf - zn),
   0, 0, 0, 1⟩

/-- The `Camera` struct of camera.rs.  The `rotation : f32` field enters the
view matrix only through cos/sin of its value, which the ℚ embedding passes
to `Camera.view` explicitly; the cached `projection` field is derived from
`screen` (see `Camera.projectionM`). -/
structure Camera where
  screen : ℚ × ℚ
  position : ℚ × ℚ
  zoom : ℚ × ℚ

/-- `Camera::projection()`: the cached `Orthographic3::new(0, w, h, 0, -1, 1)`. -/
def Camera.projectionM (cam : Camera) : Mat4 :=
  orthoM 0 cam.screen.1 cam.screen.2 0 (-1) 1

/-- `Camera::view()` from camera.rs, the exact left-to-right `view *= …` chain:
center translation, negated-position translation (twice — the duplication in the
source), rotation about z, position translation, center translation, zoom
scaling, negated-center translation.  `rotC`/`rotS` are cos/sin of the camera's
rotation field. -/
def Camera.view (cam : Camera) (rotC rotS : ℚ) : Mat4 :=
  Mat4.one
    * translationM (cam.screen.1 / 2) (cam.screen.2 / 2) 0
    * translationM (-cam.position.1) (-cam.position.2) 0
    * translationM (-cam.position.1) (-cam.position.2) 0
    * rotZM rotC rotS
    * translationM cam.position.1 cam.position.2 0
    * translationM (cam.screen.1 / 2) (cam.screen.2 / 2) 0
    * scalingM cam.zoom.1 cam.zoom.2 1
    * translationM (-(cam.screen.1 / 2)) (-(cam.screen.2 / 2)) 0

/-- C1 counterexample: for the camera with screen (800, 600), position (10, 20),
zoom (1, 1) and rotation 0, `view()` is the translation by (390, 280, 0) — a
residual screen-center translation remains — which is neither the translation by
the negated position (−10, −20) nor its duplicate (−20, −40), so the matrix is
not, even up to the duplicated translation, a pure translation by the negated
camera position. -/
theorem c1_counterexample :
    Camera.view ⟨(800, 600), (10, 20), (1, 1)⟩ 1 0 = translationM 390 280 0 ∧
    translationM 390 280 0 ≠ translationM (-10) (-20) 0 ∧
    translationM 390 280 0 ≠ translationM (-20) (-40) 0 := by
  refine ⟨?_, ?_, ?_⟩
  · ext <;>
      simp [Camera.view, Mat4.mul_def, Mat4.mul, Mat4.one, translationM, scalingM,
        rotZM] <;>
      norm_num
  · intro h
    have h03 := congrArg Mat4.m03 h
    simp [translationM] at h03
    norm_num at h03
  · intro h
    have h03 := congrArg Mat4.m03 h
    simp [translationM] at h03
    norm_num at h03

/-- C1 (amended): for every screen size and position, with zoom (1, 1) and
rotation 0, `Camera::view()` equals the translation by half the screen size
composed with a single translation by the negated camera position (one of the
two duplicated negated-position translations cancels against the restoring
translation around the identity rotation, leaving a residual screen-center
translation in addition to the negated-position component). -/
theorem c1_view_zero_rotation (sx sy px py : ℚ) :
    Camera.view ⟨(sx, sy), (px, py), (1, 1)⟩ 1 0
      = translationM (sx / 2) (sy / 2) 0 * translationM (-px) (-py) 0 := by
  ext <;>
    simp [Camera.view, Mat4.mul_def, Mat4.mul, Mat4.one, translationM, scalingM,
      rotZM] <;>
    ring

/-- The `model` matrix computed in `SpriteRenderer::draw` (sprite_renderer.rs):
`T(position) · T(+size/2) · R(rotation) · T(−size/2) · S(size.x, size.y, 1)`,
with `rotC`/`rotS` the cos/sin of the rotation argument. -/
def spriteModelM (px py pz sx sy rotC rotS : ℚ) : Mat4 :=
  translationM px py pz
    * translationM (0.5 * sx) (0.5 * sy) 0
    * rotZM rotC rotS
    * translationM (-0.5 * sx) (-0.5 * sy) 0
    * scalingM sx sy 1

/-- The `transform` matrix uploaded by `SpriteRenderer::draw`:
`projection * view * model`. -/
def spriteTransformM (projection view : Mat4) (px py pz sx sy rotC rotS : ℚ) : Mat4 :=
  projection * view * spriteModelM px py pz sx sy rotC rotS

/-- C4: for every projection, view, position (x, y, z) and size (w, h), the
transform computed by `SpriteRenderer::draw` with rotation 0 equals
`projection * view * T(x, y, z) * S(w, h, 1)`: the center-pivot translations
around the identity rotation cancel algebraically. -/
theorem c4_sprite_transform_zero_rotation (P V : Mat4) (px py pz sx sy : ℚ) :
    spriteTransformM P V px py pz sx sy 1 0
      = P * V * translationM px py pz * scalingM sx sy 1 := by
  have hmodel : spriteModelM px py pz sx sy 1 0
      = translationM px py pz * scalingM sx sy 1 := by
    ext <;>
      simp [spriteModelM, Mat4.mul_def, Mat4.mul, translationM, scalingM, rotZM]
  unfold spriteTransformM
  rw [hmodel]
  exact (Mat4.mul_assoc3 (P * V) (translationM px py pz) (scalingM sx sy 1)).symm

/-- The `GlError` struct of utils.rs: method name, numeric error code,
human-readable reason. -/
structure GlError where
  method : String
  code : Nat
  message : String
deriving DecidableEq

/-- `gl_error_string` from utils.rs: the fixed code → reason table.
The numeric codes are the OpenGL constants: INVALID_ENUM = 1280,
INVALID_VALUE = 1281, INVALID_OPERATION = 1282, OUT_OF_MEMORY = 1285,
INVALID_FRAMEBUFFER_OPERATION = 1286. -/
def glErrorString (error : Nat) : String :=
  if error = 1280 then "Invalid enum"
  else if error = 1281 then "Invalid value"
  else if error = 1282 then "Invalid operation"
  else if error = 1286 then "Invalid framebuffer operation"
  else if error = 1285 then "Out of memory"
  else "Unknown error"

/-- The expansion of the checked-call wrapper macro from utils.rs for an
invocation of the API function named `funcName`: run the call, query
`GetError` (whose result is `err`; NO_ERROR = 0), and on a non-success code
build a `GlError`.  The expansion writes the string literal appearing in the
macro body into the `method` field; since `macro_rules` metavariables are not
substituted inside string literals, that field is the five-character literal
text `$func` for every invocation — `funcName` itself is never used. -/
def glChecked (funcName : String) (err : Nat) : Except GlError Unit :=
  if err ≠ 0 then
    .error { method := "$func", code := err, message := glErrorString err }
  else
    .ok ()

/-- C3 (code bug): an invocation of the wrapper for `Enable` that leaves error
code 1280 (INVALID_ENUM) yields a `GlError` whose code and message follow the
fixed table, but whose `method` field is the literal string `$func`, not the
name `Enable` of the invoked API function; a success code yields success. -/
theorem c3_gl_wrapper_method_is_literal :
    glChecked "Enable" 1280
      = .error { method := "$func", code := 1280, message := "Invalid enum" } ∧
    "$func" ≠ "Enable" ∧
    glChecked "Enable" 0 = .ok () := by
  refine ⟨rfl, by decide, rfl⟩

/-- The mutable graphics-API state threaded through the embedding: the next
texture name `glGenTextures` will hand out, the number of rasterizer
(`Face::load_char`) invocations so far, and the number of
`glGetUniformLocation` queries so far. -/
structure GlState where
  nextTex : Nat
  loadCharCount : Nat
  locQueries : Nat
deriving DecidableEq

/-- The graphics context's uniform tables: `loc p name` is what
`glGetUniformLocation(p, name)` reports (−1 when the uniform does not exist). -/
structure UniformEnv where
  loc : Nat → String → Int

/-- The error taxonomy shared by the shader and font components
(`ShaderError` of shader.rs plus the glyph-rasterization failure that
`Font::load_glyph` surfaces through its boxed error). -/
inductive RenderError where
  | uniformNotFound (name : String)
  | glyphRasterFailed (c : Char)
deriving DecidableEq

/-- The `ShaderProgram` struct of shader.rs: it stores only the linked
program's handle (it has no uniform-location cache field). -/
structure ShaderProgram where
  id : Nat
deriving DecidableEq

/-- `ShaderProgram::get_uniform_location` (shader.rs lines 193–204): query the
API for the location of `name` — every call performs a query — and fail with
`UniformNotFound` when the API reports −1. -/
def ShaderProgram.getUniformLocation (p : ShaderProgram) (env : UniformEnv)
    (name : String) (st : GlState) : Except RenderError Int × GlState :=
  ((if env.loc p.id name = -1 then .error (.uniformNotFound name)
    else .ok (env.loc p.id name)),
   { st with locQueries := st.locQueries + 1 })

/-- The commands the renderers issue against the graphics context; uniform
uploads are recorded with the uniform's name (the upload itself goes to the
location that `getUniformLocation` resolved for that name) and value. -/
inductive GlCmd where
  | useProgram (id : Nat)
  | uniform1f (name : String) (v : ℚ)
  | uniform1i (name : String) (v : Int)
  | uniform3f (name : String) (v : ℚ × ℚ × ℚ)
  | uniform4f (name : String) (v : ℚ × ℚ × ℚ × ℚ)
  | uniformMat4 (name : String) (m : Mat4)
  | activeTexture (unit : Nat)
  | bindVertexArray (id : Nat)
  | enableBlend
  | blendFuncSrcAlpha
  | bindTexture (id : Nat)
  | bindBuffer (id : Nat)
  | bufferSubData (data : List ℚ)
  | drawArraysTriangles (first count : Nat)
deriving DecidableEq

/-- `ShaderProgram::set_uniform_1f`: resolve the location (a fresh query on
every call) and perform the typed upload. -/
def ShaderProgram.setUniform1f (p : ShaderProgram) (env : UniformEnv)
    (name : String) (v : ℚ) (st : GlState) :
    Except RenderError (List GlCmd) × GlState :=
  let r := p.getUniformLocation env name st
  (r.1.map fun _ => [GlCmd.uniform1f name v], r.2)

/-- `ShaderProgram::set_uniform_1i`. -/
def ShaderProgram.setUniform1i (p : ShaderProgram) (env : UniformEnv)
    (name : String) (v : Int) (st : GlState) :
    Except RenderError (List GlCmd) × GlState :=
  let r := p.getUniformLocation env name st
  (r.1.map fun _ => [GlCmd.uniform1i name v], r.2)

/-- `ShaderProgram::set_uniform_3f`. -/
def ShaderProgram.setUniform3f (p : ShaderProgram) (env : UniformEnv)
    (name : String) (v : ℚ × ℚ × ℚ) (st : GlState) :
    Except RenderError (List GlCmd) × GlState :=
  let r := p.getUniformLocation env name st
  (r.1.map fun _ => [GlCmd.uniform3f name v], r.2)

/-- `ShaderProgram::set_uniform_4f`. -/
def ShaderProgram.setUniform4f (p : ShaderProgram) (env : UniformEnv)
    (name : String) (v : ℚ × ℚ × ℚ × ℚ) (st : GlState) :
    Except RenderError (List GlCmd) × GlState :=
  let r := p.getUniformLocation env name st
  (r.1.map fun _ => [GlCmd.uniform4f name v], r.2)

/-- `ShaderProgram::set_uniform_mat4`. -/
def ShaderProgram.setUniformMat4 (p : ShaderProgram) (env : UniformEnv)
    (name : String) (m : Mat4) (st : GlState) :
    Except RenderError (List GlCmd) × GlState :=
  let r := p.getUniformLocation env name st
  (r.1.map fun _ => [GlCmd.uniformMat4 name m], r.2)

/-- C2 counterexample: on a program whose graphics context resolves every
uniform name to location 0, two successive `set_uniform_1f` calls with the same
name perform two location queries — the second call does not reuse a cached
location (the claim requires the query count to stay at 1). -/
theorem c2_counterexample :
    ((ShaderProgram.setUniform1f ⟨7⟩ ⟨fun _ _ => 0⟩ "alpha" 1 ⟨1, 0, 0⟩).2.locQueries = 1) ∧
    ((ShaderProgram.setUniform1f ⟨7⟩ ⟨fun _ _ => 0⟩ "alpha" 1
        (ShaderProgram.setUniform1f ⟨7⟩ ⟨fun _ _ => 0⟩ "alpha" 1 ⟨1, 0, 0⟩).2).2.locQueries = 2) ∧
    (2 : Nat) ≠ 1 := by
  refine ⟨rfl, rfl, by decide⟩

/-- C2 (amended): `ShaderProgram` holds no uniform-location cache — it stores
only the program id — and every uniform setter call, whatever its name and
whether or not the name was resolved before, performs exactly one fresh
`glGetUniformLocation` query against the graphics API. -/
theorem c2_no_uniform_location_cache (p : ShaderProgram) (env : UniformEnv)
    (name : String) (st : GlState) (vf : ℚ) (vi : Int) (v3 : ℚ × ℚ × ℚ)
    (v4 : ℚ × ℚ × ℚ × ℚ) (m : Mat4) :
    (p.setUniform1f env name vf st).2.locQueries = st.locQueries + 1 ∧
    (p.setUniform1i env name vi st).2.locQueries = st.locQueries + 1 ∧
    (p.setUniform3f env name v3 st).2.locQueries = st.locQueries + 1 ∧
    (p.setUniform4f env name v4 st).2.locQueries = st.locQueries + 1 ∧
    (p.setUniformMat4 env name m st).2.locQueries = st.locQueries + 1 := by
  exact ⟨rfl, rfl, rfl, rfl, rfl⟩

/-- The `Texture` struct of texture.rs.  The OpenGL enum values appearing
below are RGBA = 6408, RED = 6403, REPEAT = 10497, CLAMP_TO_EDGE = 33071,
LINEAR = 9729. -/
structure Texture where
  id : Nat
  width : Nat
  height : Nat
  internalFormat : Nat
  imageFormat : Nat
  wrapS : Nat
  wrapT : Nat
  filterMin : Nat
  filterMax : Nat
deriving DecidableEq

/-- `impl Default for Texture` (texture.rs lines 17–31): handle 0, size 0×0,
RGBA formats, repeat wrapping, linear filters. -/
def Texture.default : Texture :=
  { id := 0, width := 0, height := 0, internalFormat := 6408, imageFormat := 6408,
    wrapS := 10497, wrapT := 10497, filterMin := 9729, filterMax := 9729 }

/-- `glGenTextures(1, &id)` on the modelled state: hands out the next unused
texture name and advances it. -/
def GlState.genTexture (st : GlState) : Nat × GlState :=
  (st.nextTex, { st with nextTex := st.nextTex + 1 })

/-- `Texture::new` from texture.rs (lines 33–77): generate a name, allocate
the image, apply the requested wrap/filter state, and store all fields. -/
def Texture.new (width height internalFormat imageFormat wrapS wrapT
    filterMin filterMax : Nat) (st : GlState) : Texture × GlState :=
  let r := st.genTexture
  ({ id := r.1, width := width, height := height,
     internalFormat := internalFormat, imageFormat := imageFormat,
     wrapS := wrapS, wrapT := wrapT,
     filterMin := filterMin, filterMax := filterMax }, r.2)

/-- C9 counterexample: `Texture::default()` is a public constructor of
`Texture`, and the value it builds holds the GPU handle 0, so not every
constructible Texture holds a non-zero handle for its lifetime. -/
theorem c9_counterexample : Texture.default.id = 0 := rfl

/-- C9 (amended): a Texture built by `Texture::new` carries exactly the name
handed out by `glGenTextures`, which is non-zero whenever the context never
hands out the reserved name 0; `Texture::default()`, however, constructs a
Texture whose handle is 0. -/
theorem c9_new_handle_nonzero (st : GlState) (h : st.nextTex ≠ 0)
    (w hgt ifmt fmt ws wt fmin fmax : Nat) :
    (Texture.new w hgt ifmt fmt ws wt fmin fmax st).1.id ≠ 0 ∧
    Texture.default.id = 0 :=
  ⟨h, rfl⟩

/-- C9 witness: the amended theorem applied at a concrete state whose next
texture name is 1. -/
theorem c9_witness :
    (Texture.new 2 2 6408 6408 10497 10497 9729 9729 ⟨1, 0, 0⟩).1.id ≠ 0 ∧
    Texture.default.id = 0 :=
  c9_new_handle_nonzero ⟨1, 0, 0⟩ (by decide) 2 2 6408 6408 10497 10497 9729 9729

/-- A rasterized glyph slot as the FreeType face reports it after
`load_char(c, RENDER)`: bitmap dimensions, the bearing components
(`bitmap_left`, `bitmap_top`) and the horizontal advance in 1/64-pixel
units. -/
structure GlyphSlot where
  bitmapWidth : Nat
  bitmapRows : Nat
  bitmapLeft : Int
  bitmapTop : Int
  advanceX : Int
deriving DecidableEq

/-- A font face, as the code observes the rasterizer: for each character
either a rendered glyph slot, or `none` when rasterization of that character
fails. -/
structure Face where
  glyphOf : Char → Option GlyphSlot

/-- Modelled from the spec: the data-uploading `Texture::new` of the OpenGL
texture module (src/rendering/opengl/texture.rs is absent from src/; only its
caller `Character::try_from` is present).  Per spec §4.3/§4.6 it generates a
texture name, uploads the provided pixel buffer with the given dimensions and
formats, and applies the requested wrap/filter state — structurally
`Texture::new` of texture.rs plus the pixel upload, which leaves no trace in
the resulting `Texture` value. -/
def Texture.newWithData (data : List Nat)
    (width height internalFormat imageFormat wrapS wrapT
     filterMin filterMax : Nat) (st : GlState) : Texture × GlState :=
  Texture.new width height internalFormat imageFormat wrapS wrapT
    filterMin filterMax st

/-- The `Character` struct of opengl/font_renderer.rs: a glyph's texture,
bearing and horizontal advance (stored as f32 in the source, exact rationals
here). -/
structure Character where
  texture : Texture
  bearingX : ℚ
  bearingY : ℚ
  advance : ℚ
deriving DecidableEq

/-- `Character::try_from(&GlyphSlot)` (opengl/font_renderer.rs lines 23–49):
build a single-channel texture (RED/RED = 6403, clamp-to-edge = 33071,
linear = 9729) from the glyph bitmap and record bearing
(`bitmap_left`, `bitmap_top`) and advance. -/
def Character.tryFrom (slot : GlyphSlot) (st : GlState) : Character × GlState :=
  ({ texture := (Texture.newWithData [] slot.bitmapWidth slot.bitmapRows
       6403 6403 33071 33071 9729 9729 st).1,
     bearingX := (slot.bitmapLeft : ℚ),
     bearingY := (slot.bitmapTop : ℚ),
     advance := (slot.advanceX : ℚ) },
   (Texture.newWithData [] slot.bitmapWidth slot.bitmapRows
     6403 6403 33071 33071 9729 9729 st).2)

/-- The `Font` struct: the face handle plus the glyph cache
(`HashMap<char, Character>`, modelled as an association list into which
`insert` conses; the code inserts only on a miss, so lookups agree with the
hash map's). -/
structure Font where
  face : Face
  glyphs : List (Char × Character)

/-- `HashMap` lookup on the modelled glyph cache (`contains_key` / `get`). -/
def findGlyph : List (Char × Character) → Char → Option Character
  | [], _ => none
  | (d, ch) :: rest, c => if c = d then some ch else findGlyph rest c

/-- `Font::load_glyph` (opengl/font_renderer.rs lines 76–94): on a cache miss,
set the pixel-unpack alignment, invoke the rasterizer (`Face::load_char`,
counted in `loadCharCount`; its failure aborts with an error), convert the
slot to a `Character` (creating its texture) and insert it into the cache; on
a hit, return the cached entry with no rasterizer invocation and no state
change. -/
def Font.loadGlyph (f : Font) (c : Char) (st : GlState) :
    Except RenderError (Character × Font × GlState) :=
  match findGlyph f.glyphs c with
  | some ch => .ok (ch, f, st)
  | none =>
    match f.face.glyphOf c with
    | none => .error (.glyphRasterFailed c)
    | some slot =>
      .ok ((Character.tryFrom slot { st with loadCharCount := st.loadCharCount + 1 }).1,
           { f with glyphs :=
              (c, (Character.tryFrom slot { st with loadCharCount := st.loadCharCount + 1 }).1)
                :: f.glyphs },
           (Character.tryFrom slot { st with loadCharCount := st.loadCharCount + 1 }).2)

theorem loadGlyph_hit {f : Font} {c : Char} {ch : Character} (st : GlState)
    (h : findGlyph f.glyphs c = some ch) : f.loadGlyph c st = .ok (ch, f, st) := by
  unfold Font.loadGlyph
  rw [h]

theorem loadGlyph_miss_ok {f : Font} {c : Char} {slot : GlyphSlot} (st : GlState)
    (hfind : findGlyph f.glyphs c = none) (hras : f.face.glyphOf c = some slot) :
    f.loadGlyph c st =
      .ok ((Character.tryFrom slot { st with loadCharCount := st.loadCharCount + 1 }).1,
           { f with glyphs :=
              (c, (Character.tryFrom slot { st with loadCharCount := st.loadCharCount + 1 }).1)
                :: f.glyphs },
           (Character.tryFrom slot { st with loadCharCount := st.loadCharCount + 1 }).2) := by
  unfold Font.loadGlyph
  rw [hfind, hras]

theorem loadGlyph_miss_err {f : Font} {c : Char} (st : GlState)
    (hfind : findGlyph f.glyphs c = none) (hras : f.face.glyphOf c = none) :
    f.loadGlyph c st = .error (.glyphRasterFailed c) := by
  unfold Font.loadGlyph
  rw [hfind, hras]

theorem loadGlyph_ok {f : Font} {c : Char} {st : GlState} {ch : Character}
    {f' : Font} {st' : GlState}
    (h : f.loadGlyph c st = .ok (ch, f', st')) :
    findGlyph f'.glyphs c = some ch ∧ f'.face = f.face ∧
    (∀ d ch₀, findGlyph f.glyphs d = some ch₀ → findGlyph f'.glyphs d = some ch₀) := by
  cases hfind : findGlyph f.glyphs c with
  | some ch0 =>
    rw [loadGlyph_hit st hfind] at h
    obtain ⟨h1, h2, h3⟩ : ch0 = ch ∧ f = f' ∧ st = st' := by
      simpa using h
    subst h1; subst h2
    exact ⟨hfind, rfl, fun d ch₀ hd => hd⟩
  | none =>
    cases hras : f.face.glyphOf c with
    | none =>
      rw [loadGlyph_miss_err st hfind hras] at h
      exact absurd h (by simp)
    | some slot =>
      rw [loadGlyph_miss_ok st hfind hras] at h
      obtain ⟨h1, h2, h3⟩ :
          (Character.tryFrom slot { st with loadCharCount := st.loadCharCount + 1 }).1 = ch ∧
          { f with glyphs :=
              (c, (Character.tryFrom slot { st with loadCharCount := st.loadCharCount + 1 }).1)
                :: f.glyphs } = f' ∧
          (Character.tryFrom slot { st with loadCharCount := st.loadCharCount + 1 }).2 = st' := by
        simpa using h
      subst h2
      refine ⟨?_, rfl, ?_⟩
      · simp [findGlyph, h1]
      · intro d ch₀ hd
        by_cases hdc : d = c
        · subst hdc; rw [hfind] at hd; exact absurd hd (by simp)
        · simpa [findGlyph, hdc] using hd

/-- C5: once `load_glyph(c)` has produced a `Character`, calling it again with
the same character returns exactly the cached entry — same texture handle,
bearing and advance — with the font and graphics state untouched (so the
rasterizer is not invoked and no texture is created), and no lookup that
succeeded before the call fails after it (the cache never loses an entry). -/
theorem c5_load_glyph_cached (f : Font) (c : Char) (st : GlState)
    (ch : Character) (f' : Font) (st' : GlState)
    (h : f.loadGlyph c st = .ok (ch, f', st')) :
    f'.loadGlyph c st' = .ok (ch, f', st') ∧
    (∀ d ch₀, findGlyph f.glyphs d = some ch₀ → findGlyph f'.glyphs d = some ch₀) := by
  obtain ⟨hmem, -, hmono⟩ := loadGlyph_ok h
  exact ⟨loadGlyph_hit st' hmem, hmono⟩

/-- A concrete glyph slot: 2×3 bitmap, bearing (1, 1), advance 128/64 = 2 px. -/
def slotA : GlyphSlot := ⟨2, 3, 1, 1, 128⟩

/-- A face whose every character rasterizes to `slotA`. -/
def faceA : Face := ⟨fun _ => some slotA⟩

/-- A fresh font over `faceA` with an empty glyph cache. -/
def fontA : Font := ⟨faceA, []⟩

/-- The character produced for the first glyph load on `fontA` from state
(nextTex 1, one rasterization recorded, no queries). -/
def chA : Character := (Character.tryFrom slotA ⟨1, 1, 0⟩).1

/-- `fontA` after caching `chA` for character 65. -/
def fontA1 : Font := ⟨faceA, [(Char.ofNat 65, chA)]⟩

/-- The graphics state after that first glyph load. -/
def stA1 : GlState := (Character.tryFrom slotA ⟨1, 1, 0⟩).2

/-- C5 witness: the cached-reload theorem applied to the concrete first load
of character 65 on `fontA`. -/
theorem c5_witness :
    Font.loadGlyph fontA (Char.ofNat 65) ⟨1, 0, 0⟩ = .ok (chA, fontA1, stA1) ∧
    (Font.loadGlyph fontA1 (Char.ofNat 65) stA1 = .ok (chA, fontA1, stA1) ∧
     (∀ d ch₀, findGlyph fontA.glyphs d = some ch₀ →
        findGlyph fontA1.glyphs d = some ch₀)) := by
  have h : Font.loadGlyph fontA (Char.ofNat 65) ⟨1, 0, 0⟩ = .ok (chA, fontA1, stA1) := rfl
  exact ⟨h, c5_load_glyph_cached fontA (Char.ofNat 65) ⟨1, 0, 0⟩ chA fontA1 stA1 h⟩

/-- The body of the `for c in 0..128` loop of `Font::load_default_glyphs`
(applied to an arbitrary character list): load each character in order, the
`?` aborting at the first failure. -/
def Font.loadGlyphList (f : Font) (cs : List Char) (st : GlState) :
    Except RenderError (Font × GlState) :=
  match cs with
  | [] => .ok (f, st)
  | c :: rest =>
    match f.loadGlyph c st with
    | .error e => .error e
    | .ok r => r.2.1.loadGlyphList rest r.2.2

/-- The characters with code points 0 through 127 (`0..128` in the source). -/
def asciiChars : List Char := (List.range 128).map Char.ofNat

theorem asciiChars_nodup : asciiChars.Nodup := by decide

/-- `Font::load_default_glyphs` (opengl/font_renderer.rs lines 96–102). -/
def Font.loadDefaultGlyphs (f : Font) (st : GlState) :
    Except RenderError (Font × GlState) :=
  f.loadGlyphList asciiChars st

/-- `Font::new` (opengl/font_renderer.rs lines 57–74): the face opening and
pixel-size setting are external library calls whose successful outcome is the
given `face`; the font starts with an empty glyph cache and eagerly loads the
default glyphs before being returned. -/
def Font.new (face : Face) (st : GlState) : Except RenderError (Font × GlState) :=
  Font.loadDefaultGlyphs ⟨face, []⟩ st

theorem loadGlyphList_fresh_ok (cs : List Char) :
    ∀ (f : Font) (st : GlState),
      cs.Nodup →
      (∀ c ∈ cs, findGlyph f.glyphs c = none) →
      (∀ c ∈ cs, (f.face.glyphOf c).isSome) →
      ∃ f' st', f.loadGlyphList cs st = .ok (f', st') ∧
        f'.face = f.face ∧
        st'.loadCharCount = st.loadCharCount + cs.length ∧
        (∀ d, (findGlyph f'.glyphs d).isSome ↔
          (d ∈ cs ∨ (findGlyph f.glyphs d).isSome)) := by
  induction cs with
  | nil =>
    intro f st _ _ _
    exact ⟨f, st, rfl, rfl, by simp, by simp⟩
  | cons c rest ih =>
    intro f st hnodup hfresh hras
    obtain ⟨hcrest, hnodup'⟩ := List.nodup_cons.mp hnodup
    obtain ⟨slot, hslot⟩ := Option.isSome_iff_exists.mp (hras c (by simp))
    have hfind := hfresh c (by simp)
    have hload := loadGlyph_miss_ok st hfind hslot
    obtain ⟨f', st', heq, hface, hcount, hmem⟩ :=
      ih { f with glyphs :=
            (c, (Character.tryFrom slot { st with loadCharCount := st.loadCharCount + 1 }).1)
              :: f.glyphs }
        (Character.tryFrom slot { st with loadCharCount := st.loadCharCount + 1 }).2
        hnodup'
        (by
          intro c' hc'
          have hne : c' ≠ c := fun hcc => hcrest (hcc ▸ hc')
          simpa [findGlyph, hne] using hfresh c' (List.mem_cons_of_mem c hc'))
        (by intro c' hc'; exact hras c' (List.mem_cons_of_mem c hc'))
    refine ⟨f', st', ?_, hface, ?_, ?_⟩
    · unfold Font.loadGlyphList
      rw [hload]
      exact heq
    · rw [hcount]
      simp [Character.tryFrom, Texture.newWithData, Texture.new, GlState.genTexture]
      omega
    · intro d
      rw [hmem d]
      by_cases hdc : d = c
      · subst hdc
        simp [findGlyph]
      · simp [findGlyph, hdc]

theorem loadGlyphList_fail (cs : List Char) :
    ∀ (f : Font) (st : GlState),
      cs.Nodup →
      (∀ c ∈ cs, findGlyph f.glyphs c = none) →
      (∃ c ∈ cs, f.face.glyphOf c = none) →
      ∃ e, f.loadGlyphList cs st = .error e := by
  induction cs with
  | nil =>
    intro f st _ _ hex
    simp at hex
  | cons c rest ih =>
    intro f st hnodup hfresh hex
    obtain ⟨hcrest, hnodup'⟩ := List.nodup_cons.mp hnodup
    have hfind := hfresh c (by simp)
    cases hras : f.face.glyphOf c with
    | none =>
      refine ⟨.glyphRasterFailed c, ?_⟩
      unfold Font.loadGlyphList
      rw [loadGlyph_miss_err st hfind hras]
    | some slot =>
      obtain ⟨c₀, hc₀, hc₀none⟩ := hex
      have hc₀rest : c₀ ∈ rest := by
        rcases List.mem_cons.mp hc₀ with h | h
        · subst h; rw [hras] at hc₀none; exact absurd hc₀none (by simp)
        · exact h
      have hload := loadGlyph_miss_ok st hfind hras
      obtain ⟨e, he⟩ :=
        ih { f with glyphs :=
              (c, (Character.tryFrom slot { st with loadCharCount := st.loadCharCount + 1 }).1)
                :: f.glyphs }
          (Character.tryFrom slot { st with loadCharCount := st.loadCharCount + 1 }).2
          hnodup'
          (by
            intro c' hc'
            have hne : c' ≠ c := fun hcc => hcrest (hcc ▸ hc')
            simpa [findGlyph, hne] using hfresh c' (List.mem_cons_of_mem c hc'))
          ⟨c₀, hc₀rest, hc₀none⟩
      refine ⟨e, ?_⟩
      unfold Font.loadGlyphList
      rw [hload]
      exact he

/-- C6: `Font::new` eagerly rasterizes exactly the 128 characters with code
points 0 through 127 into the glyph cache before returning — on success the
cache contains precisely those characters and the rasterizer was invoked
exactly 128 times — and if rasterization of any one of them fails, the whole
load aborts with an error and no Font is returned. -/
theorem c6_font_new_eager_ascii (face : Face) (st : GlState) :
    ((∀ c ∈ asciiChars, (face.glyphOf c).isSome) →
      ∃ f' st', Font.new face st = .ok (f', st') ∧
        (∀ c ∈ asciiChars, (findGlyph f'.glyphs c).isSome) ∧
        (∀ d, (findGlyph f'.glyphs d).isSome → d ∈ asciiChars) ∧
        st'.loadCharCount = st.loadCharCount + 128) ∧
    ((∃ c ∈ asciiChars, face.glyphOf c = none) →
      ∃ e, Font.new face st = .error e) := by
  constructor
  · intro hall
    obtain ⟨f', st', heq, hface, hcount, hmem⟩ :=
      loadGlyphList_fresh_ok asciiChars ⟨face, []⟩ st asciiChars_nodup
        (fun c _ => rfl) hall
    refine ⟨f', st', heq, ?_, ?_, ?_⟩
    · intro c hc
      exact (hmem c).mpr (Or.inl hc)
    · intro d hd
      rcases (hmem d).mp hd with h | h
      · exact h
      · exact absurd h (by simp [findGlyph])
    · simpa using hcount
  · intro hex
    exact loadGlyphList_fail asciiChars ⟨face, []⟩ st asciiChars_nodup
      (fun c _ => rfl) hex

/-- A face on which every rasterization fails. -/
def faceFail : Face := ⟨fun _ => none⟩

/-- C6 witness: the eager-load theorem applied to a concrete always-succeeding
face (success branch) and to a concrete always-failing face (abort branch). -/
theorem c6_witness :
    (∃ f' st', Font.new faceA ⟨1, 0, 0⟩ = .ok (f', st') ∧
      (∀ c ∈ asciiChars, (findGlyph f'.glyphs c).isSome) ∧
      (∀ d, (findGlyph f'.glyphs d).isSome → d ∈ asciiChars) ∧
      st'.loadCharCount = 0 + 128) ∧
    (∃ e, Font.new faceFail ⟨1, 0, 0⟩ = .error e) :=
  ⟨(c6_font_new_eager_ascii faceA ⟨1, 0, 0⟩).1 (fun c _ => rfl),
   (c6_font_new_eager_ascii faceFail ⟨1, 0, 0⟩).2 ⟨Char.ofNat 0, by decide, rfl⟩⟩

/-- The newline character, `\n` (code point 10), singled out by the pen
advance logic of `FontRenderer::draw`. -/
def newlineChar : Char := Char.ofNat 10

/-- Rust's `f32 as u32` cast: truncate toward zero, saturating at the type's
bounds.  On the ℚ embedding this is the floor clamped to [0, 2^32 − 1]
(negative values clamp to 0 exactly as the float cast does, and floor agrees
with truncation on the nonnegative values). -/
def f32ToU32 (q : ℚ) : Nat := (min (max q.floor 0) 4294967295).toNat

/-- The pen advance for one character:
`(character.advance as u32 >> 6) as f32 * scale` (the shift by 6 is division
by 64). -/
def penAdvance (ch : Character) (scale : ℚ) : ℚ :=
  ((f32ToU32 ch.advance / 64 : Nat) : ℚ) * scale

/-- The pen update at the end of one loop iteration of `FontRenderer::draw`
(lines 243–247): the advance is added to pen x for every character, and then,
on a newline, pen x is reset to 0 (the just-added advance is discarded) and
pen y grows by that glyph's own texture height times scale. -/
def penStep (ch : Character) (c : Char) (scale x y : ℚ) : ℚ × ℚ :=
  let x1 := x + penAdvance ch scale
  if c = newlineChar then (0, y + (ch.texture.height : ℚ) * scale) else (x1, y)

/-- The 6×4-float quad streamed for one glyph at pen position (x, y)
(lines 193–225): corner at (xpos, ypos) from bearing, extent from the glyph
texture's width/height times scale, with the UV coordinates of the source. -/
def glyphVertices (ch : Character) (x y scale : ℚ) : List ℚ :=
  [x + ch.bearingX * scale,
   (y - ((ch.texture.height : ℚ) - ch.bearingY) * scale) + (ch.texture.height : ℚ) * scale,
   0, 0,
   x + ch.bearingX * scale,
   y - ((ch.texture.height : ℚ) - ch.bearingY) * scale,
   0, 1,
   (x + ch.bearingX * scale) + (ch.texture.width : ℚ) * scale,
   y - ((ch.texture.height : ℚ) - ch.bearingY) * scale,
   1, 1,
   x + ch.bearingX * scale,
   (y - ((ch.texture.height : ℚ) - ch.bearingY) * scale) + (ch.texture.height : ℚ) * scale,
   0, 0,
   (x + ch.bearingX * scale) + (ch.texture.width : ℚ) * scale,
   y - ((ch.texture.height : ℚ) - ch.bearingY) * scale,
   1, 1,
   (x + ch.bearingX * scale) + (ch.texture.width : ℚ) * scale,
   (y - ((ch.texture.height : ℚ) - ch.bearingY) * scale) + (ch.texture.height : ℚ) * scale,
   1, 0]

/-- The `FontRenderer` struct (opengl/font_renderer.rs lines 105–110): the
text shader program and the one dynamic quad VAO/VBO (the FreeType library
handle is an external collaborator). -/
structure FontRenderer where
  shader : ShaderProgram
  vao : Nat
  vbo : Nat
deriving DecidableEq

/-- The commands one loop iteration of `FontRenderer::draw` issues for a glyph
(lines 227–241): enable blending, set the blend function, bind the glyph
texture, stream the quad into the dynamic VBO via a partial update, and issue
one 6-vertex triangle draw. -/
def charCmds (r : FontRenderer) (ch : Character) (x y scale : ℚ) : List GlCmd :=
  [GlCmd.enableBlend, GlCmd.blendFuncSrcAlpha,
   GlCmd.bindTexture ch.texture.id,
   GlCmd.bindBuffer r.vbo,
   GlCmd.bufferSubData (glyphVertices ch x y scale),
   GlCmd.bindBuffer 0,
   GlCmd.drawArraysTriangles 0 6]

/-- The per-character loop of `FontRenderer::draw` (lines 190–248): for each
character — the newline included — load its glyph (aborting the draw on a
rasterization failure), issue the glyph's commands at the current pen, then
update the pen.  Returns the commands issued and, on success, the final font,
state and pen. -/
def FontRenderer.drawLoop (r : FontRenderer) (f : Font) (cs : List Char)
    (x y scale : ℚ) (st : GlState) :
    List GlCmd × Except RenderError (Font × GlState × ℚ × ℚ) :=
  match cs with
  | [] => ([], .ok (f, st, x, y))
  | c :: rest =>
    match f.loadGlyph c st with
    | .error e => ([], .error e)
    | .ok rch =>
      let p := penStep rch.1 c scale x y
      let t := r.drawLoop rch.2.1 rest p.1 p.2 scale rch.2.2
      (charCmds r rch.1 x y scale ++ t.1, t.2)

/-- `FontRenderer::draw` (lines 166–254): bind the text shader, set the
`textColor` uniform and the `transform` uniform — the latter always to the
fixed `Orthographic3::new(0, 1280, 720, 0, -1, 1)` — bind texture unit 0 and
the renderer's VAO, run the per-character loop, then unbind. -/
def FontRenderer.draw (r : FontRenderer) (env : UniformEnv) (f : Font)
    (text : List Char) (x y scale : ℚ) (color : ℚ × ℚ × ℚ) (st : GlState) :
    List GlCmd × Except RenderError (Font × GlState) :=
  match r.shader.setUniform3f env "textColor" color st with
  | (.error e, _) => ([GlCmd.useProgram r.shader.id], .error e)
  | (.ok cmds1, st1) =>
    match r.shader.setUniformMat4 env "transform" (orthoM 0 1280 720 0 (-1) 1) st1 with
    | (.error e, _) => (GlCmd.useProgram r.shader.id :: cmds1, .error e)
    | (.ok cmds2, st2) =>
      let t := r.drawLoop f text x y scale st2
      match t.2 with
      | .error e =>
        (GlCmd.useProgram r.shader.id :: (cmds1 ++ cmds2 ++
          [GlCmd.activeTexture 0, GlCmd.bindVertexArray r.vao] ++ t.1), .error e)
      | .ok res =>
        (GlCmd.useProgram r.shader.id :: (cmds1 ++ cmds2 ++
          [GlCmd.activeTexture 0, GlCmd.bindVertexArray r.vao] ++ t.1 ++
          [GlCmd.bindVertexArray 0, GlCmd.bindTexture 0]),
         .ok (res.1, res.2.1))

theorem drawLoop_no_uniformMat4 (r : FontRenderer) (cs : List Char) :
    ∀ (f : Font) (x y scale : ℚ) (st : GlState) (name : String) (m : Mat4),
      GlCmd.uniformMat4 name m ∉ (r.drawLoop f cs x y scale st).1 := by
  induction cs with
  | nil =>
    intro f x y scale st name m
    simp [FontRenderer.drawLoop]
  | cons c rest ih =>
    intro f x y scale st name m
    unfold FontRenderer.drawLoop
    cases hl : f.loadGlyph c st with
    | error e => simp
    | ok rch =>
      simp only []
      intro hmem
      rcases List.mem_append.mp hmem with h | h
      · simp [charCmds] at h
      · exact ih rch.2.1 _ _ scale rch.2.2 name m h

/-- C7: on every `FontRenderer::draw` call, whatever the font, text, pen
position, scale, color, state and graphics context, every `transform` matrix
upload in the issued command stream carries exactly the fixed orthographic
projection over (0, 1280) × (720, 0) with near/far −1/1, and when the shader's
two uniforms resolve, such an upload is indeed issued. -/
theorem c7_fixed_text_transform (r : FontRenderer) (env : UniformEnv) (f : Font)
    (text : List Char) (x y scale : ℚ) (color : ℚ × ℚ × ℚ) (st : GlState)
    (m : Mat4) :
    (GlCmd.uniformMat4 "transform" m ∈ (r.draw env f text x y scale color st).1 →
      m = orthoM 0 1280 720 0 (-1) 1) ∧
    (env.loc r.shader.id "textColor" ≠ -1 → env.loc r.shader.id "transform" ≠ -1 →
      GlCmd.uniformMat4 "transform" (orthoM 0 1280 720 0 (-1) 1)
        ∈ (r.draw env f text x y scale color st).1) := by
  constructor
  · intro hmem
    by_cases h1 : env.loc r.shader.id "textColor" = -1
    · simp [FontRenderer.draw, ShaderProgram.setUniform3f, ShaderProgram.setUniformMat4,
        ShaderProgram.getUniformLocation, Except.map, h1] at hmem
    · by_cases h2 : env.loc r.shader.id "transform" = -1
      · simp [FontRenderer.draw, ShaderProgram.setUniform3f, ShaderProgram.setUniformMat4,
          ShaderProgram.getUniformLocation, Except.map, h1, h2] at hmem
      · simp only [FontRenderer.draw, ShaderProgram.setUniform3f, ShaderProgram.setUniformMat4,
          ShaderProgram.getUniformLocation, if_neg h1, if_neg h2, Except.map] at hmem
        cases ht : (r.drawLoop f text x y scale
            { st with locQueries := st.locQueries + 1 + 1 }).2 with
        | error e =>
          rw [ht] at hmem
          simp [drawLoop_no_uniformMat4] at hmem
          exact hmem
        | ok res =>
          rw [ht] at hmem
          simp [drawLoop_no_uniformMat4] at hmem
          exact hmem
  · intro h1 h2
    simp only [FontRenderer.draw, ShaderProgram.setUniform3f, ShaderProgram.setUniformMat4,
      ShaderProgram.getUniformLocation, if_neg h1, if_neg h2, Except.map]
    cases ht : (r.drawLoop f text x y scale
        { st with locQueries := st.locQueries + 1 + 1 }).2 with
    | error e => simp [ht]
    | ok res => simp [ht]

/-- A concrete font renderer for witnesses: shader program 3, VAO 1, VBO 2. -/
def rendererA : FontRenderer := ⟨⟨3⟩, 1, 2⟩

/-- A graphics context resolving every uniform name to location 0. -/
def envZero : UniformEnv := ⟨fun _ _ => 0⟩

/-- C7 witness: the fixed-transform theorem applied to a concrete draw call
(empty text, pen (0,0), scale 1, white) on a context that resolves both
uniforms. -/
theorem c7_witness :
    ((0 : Int) ≠ -1) ∧
    GlCmd.uniformMat4 "transform" (orthoM 0 1280 720 0 (-1) 1)
      ∈ (rendererA.draw envZero fontA [] 0 0 1 (1, 1, 1) ⟨1, 0, 0⟩).1 :=
  ⟨by decide,
   (c7_fixed_text_transform rendererA envZero fontA [] 0 0 1 (1, 1, 1) ⟨1, 0, 0⟩
      Mat4.one).2 (by decide) (by decide)⟩

theorem drawLoop_all_newline (r : FontRenderer) (cs : List Char) :
    ∀ (f : Font) (x y scale : ℚ) (st : GlState) (f' : Font) (st' : GlState) (x' y' : ℚ),
      (∀ c ∈ cs, c = newlineChar) →
      (r.drawLoop f cs x y scale st).2 = .ok (f', st', x', y') →
      x' = if cs.isEmpty then x else 0 := by
  induction cs with
  | nil =>
    intro f x y scale st f' st' x' y' _ h
    obtain ⟨h1, h2, h3, h4⟩ : f = f' ∧ st = st' ∧ x = x' ∧ y = y' := by
      simpa [FontRenderer.drawLoop] using h
    simp [← h3]
  | cons c rest ih =>
    intro f x y scale st f' st' x' y' hall h
    have hc : c = newlineChar := hall c (by simp)
    unfold FontRenderer.drawLoop at h
    cases hl : f.loadGlyph c st with
    | error e =>
      rw [hl] at h
      simp at h
    | ok rch =>
      rw [hl] at h
      simp only [] at h
      have hx0 : (penStep rch.1 c scale x y).1 = 0 := by
        subst hc
        simp [penStep]
      have hrec := ih rch.2.1 (penStep rch.1 c scale x y).1 (penStep rch.1 c scale x y).2
        scale rch.2.2 f' st' x' y'
        (fun c' hc' => hall c' (List.mem_cons_of_mem c hc')) h
      rw [hrec]
      rcases rest with _ | ⟨d, ds⟩ <;> simp [hx0]

/-- C8: after a non-newline character the pen x has grown by the character's
advance interpreted as an integer, shifted right by 6, times scale, and pen y
is unchanged; after a newline the pen x is 0 and pen y has grown by the
newline glyph's own texture height times scale; consequently a draw whose text
is all newline characters ends with pen x = 0 — no accumulated horizontal
displacement (the starting x for a nonempty such text is discarded by the
reset). -/
theorem c8_pen_advance_semantics :
    (∀ (ch : Character) (c : Char) (scale x y : ℚ), c ≠ newlineChar →
      penStep ch c scale x y = (x + penAdvance ch scale, y)) ∧
    (∀ (ch : Character) (scale x y : ℚ),
      penStep ch newlineChar scale x y = (0, y + (ch.texture.height : ℚ) * scale)) ∧
    (∀ (r : FontRenderer) (f : Font) (cs : List Char) (x y scale : ℚ) (st : GlState)
        (f' : Font) (st' : GlState) (x' y' : ℚ),
      (∀ c ∈ cs, c = newlineChar) →
      (r.drawLoop f cs x y scale st).2 = .ok (f', st', x', y') →
      x' = if cs.isEmpty then x else 0) := by
  refine ⟨?_, ?_, ?_⟩
  · intro ch c scale x y hc
    simp [penStep, hc]
  · intro ch scale x y
    simp [penStep]
  · intro r f cs x y scale st f' st' x' y' hall h
    exact drawLoop_all_newline r cs f x y scale st f' st' x' y' hall h

/-- `fontA` after caching `chA` for the newline character. -/
def fontN1 : Font := ⟨faceA, [(newlineChar, chA)]⟩

/-- C8 witness: the pen-semantics theorem applied at character 65 and at the
newline, plus the all-newline loop run on the concrete text `[newline]`
starting at pen x = 5. -/
theorem c8_witness :
    penStep chA (Char.ofNat 65) 2 3 4 = (3 + penAdvance chA 2, 4) ∧
    penStep chA newlineChar 2 3 4 = (0, 4 + (chA.texture.height : ℚ) * 2) ∧
    (0 : ℚ) = if ([newlineChar] : List Char).isEmpty then (5 : ℚ) else 0 :=
  ⟨c8_pen_advance_semantics.1 chA (Char.ofNat 65) 2 3 4 (by decide),
   c8_pen_advance_semantics.2.1 chA 2 3 4,
   c8_pen_advance_semantics.2.2 rendererA fontA [newlineChar] 5 0 1 ⟨1, 0, 0⟩
     fontN1 stA1 0 (0 + (chA.texture.height : ℚ) * 1) (by simp) rfl⟩

/-- Recognizer for the 6-vertex triangle draw command. -/
def isDrawCmd : GlCmd → Bool
  | .drawArraysTriangles _ _ => true
  | _ => false

/-- The number of draw calls in a command stream. -/
def countDraws (cmds : List GlCmd) : Nat := (cmds.filter isDrawCmd).length

theorem countDraws_append (a b : List GlCmd) :
    countDraws (a ++ b) = countDraws a + countDraws b := by
  simp [countDraws, List.filter_append]

theorem countDraws_charCmds (r : FontRenderer) (ch : Character) (x y scale : ℚ) :
    countDraws (charCmds r ch x y scale) = 1 := rfl

theorem drawLoop_mono (r : FontRenderer) (cs : List Char) :
    ∀ (f : Font) (x y scale : ℚ) (st : GlState) (f' : Font) (st' : GlState) (x' y' : ℚ)
      (d : Char) (ch₀ : Character),
      (r.drawLoop f cs x y scale st).2 = .ok (f', st', x', y') →
      findGlyph f.glyphs d = some ch₀ → findGlyph f'.glyphs d = some ch₀ := by
  induction cs with
  | nil =>
    intro f x y scale st f' st' x' y' d ch₀ h hd
    obtain ⟨h1, -, -, -⟩ : f = f' ∧ st = st' ∧ x = x' ∧ y = y' := by
      simpa [FontRenderer.drawLoop] using h
    exact h1 ▸ hd
  | cons c rest ih =>
    intro f x y scale st f' st' x' y' d ch₀ h hd
    unfold FontRenderer.drawLoop at h
    cases hl : f.loadGlyph c st with
    | error e =>
      rw [hl] at h
      simp at h
    | ok rch =>
      rw [hl] at h
      simp only [] at h
      exact ih rch.2.1 _ _ scale rch.2.2 f' st' x' y' d ch₀ h
        ((loadGlyph_ok hl).2.2 d ch₀ hd)

theorem drawLoop_ok_stats (r : FontRenderer) (cs : List Char) :
    ∀ (f : Font) (x y scale : ℚ) (st : GlState) (f' : Font) (st' : GlState) (x' y' : ℚ),
      (r.drawLoop f cs x y scale st).2 = .ok (f', st', x', y') →
      countDraws (r.drawLoop f cs x y scale st).1 = cs.length ∧
      (∀ c ∈ cs, (findGlyph f'.glyphs c).isSome) := by
  induction cs with
  | nil =>
    intro f x y scale st f' st' x' y' _
    constructor
    · simp [FontRenderer.drawLoop, countDraws]
    · simp
  | cons c rest ih =>
    intro f x y scale st f' st' x' y' h
    unfold FontRenderer.drawLoop at h ⊢
    cases hl : f.loadGlyph c st with
    | error e =>
      rw [hl] at h
      simp at h
    | ok rch =>
      rw [hl] at h
      simp only [] at h ⊢
      obtain ⟨hcount, hmem⟩ := ih rch.2.1 _ _ scale rch.2.2 f' st' x' y' h
      constructor
      · rw [countDraws_append, countDraws_charCmds, hcount]
        simp [Nat.add_comm]
      · intro c' hc'
        rcases List.mem_cons.mp hc' with hceq | hcr
        · subst hceq
          have hkeep := drawLoop_mono r rest rch.2.1 _ _ scale rch.2.2 f' st' x' y'
            c' rch.1 h (loadGlyph_ok hl).1
          simp [hkeep]
        · exact hmem c' hcr

/-- C10: on a successful draw loop, every character of the text — the newline
included — had its glyph loaded (it is in the final cache) and contributed
exactly one 6-vertex quad draw (draw count = text length; each character's
command block contains exactly one draw); the advance is added to pen x for
every character, and for a newline the subsequent reset wins: the pen x
leaving a newline iteration is 0, the just-added advance discarded. -/
theorem c10_draw_per_char (r : FontRenderer) (f : Font) (cs : List Char)
    (x y scale : ℚ) (st : GlState) (f' : Font) (st' : GlState) (x' y' : ℚ)
    (h : (r.drawLoop f cs x y scale st).2 = .ok (f', st', x', y')) :
    countDraws (r.drawLoop f cs x y scale st).1 = cs.length ∧
    (∀ c ∈ cs, (findGlyph f'.glyphs c).isSome) ∧
    (∀ (ch : Character) (s x₀ y₀ : ℚ), countDraws (charCmds r ch x₀ y₀ s) = 1) ∧
    (∀ (ch : Character) (s x₀ y₀ : ℚ), (penStep ch newlineChar s x₀ y₀).1 = 0) := by
  obtain ⟨h1, h2⟩ := drawLoop_ok_stats r cs f x y scale st f' st' x' y' h
  refine ⟨h1, h2, fun ch s x₀ y₀ => countDraws_charCmds r ch x₀ y₀ s, ?_⟩
  intro ch s x₀ y₀
  simp [penStep]

/-- C10 witness: the per-character theorem applied to the concrete one-glyph
draw of character 65 on `fontA`. -/
theorem c10_witness :
    (rendererA.drawLoop fontA [Char.ofNat 65] 0 0 1 ⟨1, 0, 0⟩).2
      = .ok (fontA1, stA1, 0 + penAdvance chA 1, 0) ∧
    countDraws (rendererA.drawLoop fontA [Char.ofNat 65] 0 0 1 ⟨1, 0, 0⟩).1 = 1 := by
  have h : (rendererA.drawLoop fontA [Char.ofNat 65] 0 0 1 ⟨1, 0, 0⟩).2
      = .ok (fontA1, stA1, 0 + penAdvance chA 1, 0) := rfl
  exact ⟨h, (c10_draw_per_char rendererA fontA [Char.ofNat 65] 0 0 1 ⟨1, 0, 0⟩
    fontA1 stA1 (0 + penAdvance chA 1) 0 h).1⟩
